import Mathlib

/-!
Verification of `apply_patch.py`, a small idempotent source-patching utility.

Modelling choices (a shallow embedding of the Python source):
* A Python string is a `List Char` (a sequence of Unicode code points).
* The state of one target file is an `Option (List Char)`: `none` means the
  path does not exist, `some c` means the file exists with text content `c`.
  `apply_patch` only ever touches its own path, so one file's state suffices.
* `str.strip()` is `pyStrip`: remove leading and trailing whitespace
  characters (the ASCII whitespace set used by Python for ASCII text).
* `content.startswith(pat)` is `startswith content pat`.
* `apply_patch` returns the pair (returned boolean, file state after the call).
* `main`'s loop over the patch table is `mainRun`, acting on a list of
  entries, each entry carrying the state of its (distinct) target file;
  it records the per-entry results, the success tally, the summary line and
  the process exit code.
* Exceptions raised by the file read/write (permission denied, disk error,
  decode error) are modelled by fault flags in `apply_patchFaulty` /
  `mainRunFaulty`: a set flag makes the corresponding operation raise, and
  the except-block of the source catches it.
-/

namespace ApplyPatch

/-- Whitespace characters stripped by Python's `str.strip()` on ASCII text:
space, tab, newline, carriage return, vertical tab, form feed. -/
def isPySpace (c : Char) : Bool :=
  c == ' ' || c == '\t' || c == '\n' || c == '\r' || c == '\x0b' || c == '\x0c'

/-- Python `s.strip()`: drop leading whitespace, then drop trailing
whitespace (implemented as reverse, drop leading, reverse). -/
def pyStrip (s : List Char) : List Char :=
  ((s.dropWhile isPySpace).reverse.dropWhile isPySpace).reverse

/-- Python `s.startswith(pat)`: `startswith s pat` is true iff `pat` is an
initial segment of `s`. -/
def startswith : List Char → List Char → Bool
  | _, [] => true
  | [], _ :: _ => false
  | a :: s, b :: t => a == b && startswith s t

/-- The `PATCHES` table of the source: target path → text block to prepend. -/
def PATCHES : List (String × String) :=
  [("libs/odpi/test/test_4500_sessionless_txn.c",
    "#ifdef _WIN32\n    #include <windows.h>\n    #define sleep(s) Sleep((s) * 1000)\n#else\n    #include <unistd.h>\n#endif"),
   ("libs/odpi/samples/DemoBFILE.c",
    "#if defined(_WIN32)\n    #include <direct.h>\n    #define chdir _chdir\n#else\n    #include <unistd.h>\n#endif")]

/-- `apply_patch(file_path, patch_content)`: given the state of the target
file and the patch text, return the boolean result and the new file state.
Mirrors the source: missing file → `False`; content already starting with
the stripped patch → `True` without writing; otherwise write
`normalized_patch + "\n\n" + original_content` and return `True`. -/
def apply_patch (file : Option (List Char)) (patch_content : List Char) :
    Bool × Option (List Char) :=
  match file with
  | none => (false, none)
  | some original_content =>
    let normalized_patch := pyStrip patch_content
    if startswith original_content normalized_patch then
      (true, some original_content)
    else
      (true, some (normalized_patch ++ '\n' :: '\n' :: original_content))

/-- `apply_patch` with fault injection: `readFails` (resp. `writeFails`)
makes the read (resp. write) raise an exception, which the except-block of
the source catches, printing a message and returning `False` for this
entry. -/
def apply_patchFaulty (file : Option (List Char)) (patch_content : List Char)
    (readFails writeFails : Bool) : Bool × Option (List Char) :=
  match file with
  | none => (false, none)
  | some original_content =>
    if readFails then (false, some original_content)
    else
      let normalized_patch := pyStrip patch_content
      if startswith original_content normalized_patch then
        (true, some original_content)
      else if writeFails then (false, some original_content)
      else (true, some (normalized_patch ++ '\n' :: '\n' :: original_content))

/-- What one run of `main` produces: the per-entry results (boolean returned
and resulting file state, in table order), the success tally, the total
count, the final summary line, and the process exit code. -/
structure RunOutcome where
  results : List (Bool × Option (List Char))
  successCount : Nat
  totalCount : Nat
  summary : String
  exitCode : Nat

/-- One iteration of `main`'s loop: run `f` on the entry, bump the tally if
it returned `True`, and record the result. -/
def runStep {α : Type} (f : α → Bool × Option (List Char))
    (acc : Nat × List (Bool × Option (List Char))) (e : α) :
    Nat × List (Bool × Option (List Char)) :=
  let r := f e
  (if r.1 then acc.1 + 1 else acc.1, acc.2 ++ [r])

/-- `main()`: iterate the patch table (each entry paired with the state of
its target file), tally successes, print the summary line, and exit with
code 1 iff the tally differs from the total. -/
def mainRun (entries : List (Option (List Char) × List Char)) : RunOutcome :=
  let loop := entries.foldl (runStep fun e => apply_patch e.1 e.2) (0, [])
  { results := loop.2
    successCount := loop.1
    totalCount := entries.length
    summary := "Patching process complete. " ++ Nat.repr loop.1 ++ "/" ++
      Nat.repr entries.length ++ " files checked/patched successfully."
    exitCode := if loop.1 ≠ entries.length then 1 else 0 }

/-- An entry of the patch table together with the state of its target file
and the injected read/write faults for it. -/
structure FaultEntry where
  file : Option (List Char)
  patch_content : List Char
  readFails : Bool
  writeFails : Bool

/-- `main()` under fault injection: as `mainRun`, but each entry's
read/write may raise, caught inside `apply_patch`. -/
def mainRunFaulty (entries : List FaultEntry) : RunOutcome :=
  let loop := entries.foldl
    (runStep fun e => apply_patchFaulty e.file e.patch_content e.readFails e.writeFails) (0, [])
  { results := loop.2
    successCount := loop.1
    totalCount := entries.length
    summary := "Patching process complete. " ++ Nat.repr loop.1 ++ "/" ++
      Nat.repr entries.length ++ " files checked/patched successfully."
    exitCode := if loop.1 ≠ entries.length then 1 else 0 }

/-! ### Basic lemmas about `startswith`, `dropWhile` and `pyStrip` -/

theorem startswith_iff (s t : List Char) :
    startswith s t = true ↔ ∃ u, s = t ++ u := by
  induction t generalizing s with
  | nil => simp [startswith]
  | cons b t ih =>
    cases s with
    | nil => simp [startswith]
    | cons a s =>
      simp only [startswith, Bool.and_eq_true, beq_iff_eq, ih, List.cons_append,
        List.cons.injEq]
      constructor
      · rintro ⟨rfl, u, rfl⟩; exact ⟨u, rfl, rfl⟩
      · rintro ⟨u, rfl, rfl⟩; exact ⟨rfl, u, rfl⟩

theorem startswith_append (t u : List Char) : startswith (t ++ u) t = true :=
  (startswith_iff _ _).mpr ⟨u, rfl⟩

theorem dropWhile_head_false (q : Char → Bool) :
    ∀ {l : List Char} {c : Char} {t : List Char},
      l.dropWhile q = c :: t → q c = false := by
  intro l
  induction l with
  | nil => intro c t h; simp at h
  | cons a l ih =>
    intro c t h
    rw [List.dropWhile_cons] at h
    cases ha : q a with
    | true => rw [ha] at h; simp at h; exact ih h
    | false => rw [ha] at h; simp at h; rw [← h.1]; exact ha

theorem dropWhile_drops (q : Char → Bool) :
    ∀ l : List Char, ∃ u, u ++ l.dropWhile q = l := by
  intro l
  induction l with
  | nil => exact ⟨[], rfl⟩
  | cons a l ih =>
    cases ha : q a with
    | true =>
      obtain ⟨u, hu⟩ := ih
      exact ⟨a :: u, by simp [List.dropWhile_cons, ha, hu]⟩
    | false => exact ⟨[], by simp [List.dropWhile_cons, ha]⟩

theorem dropWhile_self (q : Char → Bool) (l : List Char) :
    (l.dropWhile q).dropWhile q = l.dropWhile q := by
  cases h : l.dropWhile q with
  | nil => simp
  | cons c t =>
    rw [List.dropWhile_cons, dropWhile_head_false q h]
    simp

theorem pyStrip_initial (s : List Char) :
    ∃ v, s.dropWhile isPySpace = pyStrip s ++ v := by
  obtain ⟨u, hu⟩ := dropWhile_drops isPySpace (s.dropWhile isPySpace).reverse
  refine ⟨u.reverse, ?_⟩
  have := congrArg List.reverse hu
  simp only [List.reverse_append, List.reverse_reverse] at this
  exact this.symm

theorem pyStrip_head {s : List Char} {c : Char} {t : List Char}
    (h : pyStrip s = c :: t) : isPySpace c = false := by
  obtain ⟨v, hv⟩ := pyStrip_initial s
  rw [h] at hv
  exact dropWhile_head_false isPySpace hv

theorem pyStrip_dropWhile (s : List Char) :
    (pyStrip s).dropWhile isPySpace = pyStrip s := by
  cases h : pyStrip s with
  | nil => simp
  | cons c t =>
    rw [List.dropWhile_cons, pyStrip_head h]
    simp

theorem pyStrip_idem (s : List Char) : pyStrip (pyStrip s) = pyStrip s := by
  show (((pyStrip s).dropWhile isPySpace).reverse.dropWhile isPySpace).reverse = pyStrip s
  rw [pyStrip_dropWhile]
  show ((((s.dropWhile isPySpace).reverse.dropWhile isPySpace).reverse).reverse.dropWhile
    isPySpace).reverse = pyStrip s
  rw [List.reverse_reverse, dropWhile_self]
  rfl

/-! ### Branch lemmas for `apply_patch` -/

theorem apply_patch_already {orig patch : List Char}
    (h : startswith orig (pyStrip patch) = true) :
    apply_patch (some orig) patch = (true, some orig) := by
  simp [apply_patch, h]

theorem apply_patch_write {orig patch : List Char}
    (h : startswith orig (pyStrip patch) = false) :
    apply_patch (some orig) patch
      = (true, some (pyStrip patch ++ '\n' :: '\n' :: orig)) := by
  simp [apply_patch, h]

theorem apply_patch_result_starts (orig patch : List Char) :
    ∃ c rest, (apply_patch (some orig) patch).2 = some c ∧
      c = pyStrip patch ++ rest := by
  cases h : startswith orig (pyStrip patch) with
  | true =>
    obtain ⟨u, hu⟩ := (startswith_iff _ _).mp h
    exact ⟨orig, u, by rw [apply_patch_already h], hu⟩
  | false =>
    exact ⟨pyStrip patch ++ '\n' :: '\n' :: orig, '\n' :: '\n' :: orig,
      by rw [apply_patch_write h], rfl⟩

/-! ### Characterization of the `main` loop -/

theorem foldl_runStep {α : Type} (f : α → Bool × Option (List Char)) :
    ∀ (entries : List α) (k : Nat) (rs : List (Bool × Option (List Char))),
      entries.foldl (runStep f) (k, rs)
        = (k + (entries.map f).countP (fun r => r.1), rs ++ entries.map f) := by
  intro entries
  induction entries with
  | nil => intro k rs; simp
  | cons e es ih =>
    intro k rs
    rw [List.foldl_cons, show runStep f (k, rs) e
      = (if (f e).1 then k + 1 else k, rs ++ [f e]) from rfl, ih]
    cases hfe : (f e).1 with
    | true => simp [List.countP_cons, hfe]; omega
    | false => simp [List.countP_cons, hfe]

theorem mainRun_results (entries : List (Option (List Char) × List Char)) :
    (mainRun entries).results = entries.map (fun e => apply_patch e.1 e.2) := by
  show (entries.foldl (runStep fun e => apply_patch e.1 e.2) (0, [])).2 = _
  rw [foldl_runStep]
  simp

theorem mainRun_successCount (entries : List (Option (List Char) × List Char)) :
    (mainRun entries).successCount
      = (entries.map (fun e => apply_patch e.1 e.2)).countP (fun r => r.1) := by
  show (entries.foldl (runStep fun e => apply_patch e.1 e.2) (0, [])).1 = _
  rw [foldl_runStep]
  simp

theorem mainRunFaulty_results (entries : List FaultEntry) :
    (mainRunFaulty entries).results = entries.map
      (fun e => apply_patchFaulty e.file e.patch_content e.readFails e.writeFails) := by
  show (entries.foldl
    (runStep fun e => apply_patchFaulty e.file e.patch_content e.readFails e.writeFails)
    (0, [])).2 = _
  rw [foldl_runStep]
  simp

/-! ### The claims -/

/-- Claim C1. Idempotence of apply_patch: for every target file and patch
body, applying the patch twice in succession yields a file whose content
equals applying it once; on the second call the file content already starts
with the normalized patch body, so apply_patch performs no write and
returns success (True). -/
theorem apply_patch_twice_eq_once (orig patch : List Char) :
    apply_patch ((apply_patch (some orig) patch).2) patch
      = (true, (apply_patch (some orig) patch).2) ∧
    ∃ c rest, (apply_patch (some orig) patch).2 = some c ∧
      c = pyStrip patch ++ rest := by
  obtain ⟨c, rest, hc, hcr⟩ := apply_patch_result_starts orig patch
  refine ⟨?_, c, rest, hc, hcr⟩
  rw [hc]
  exact apply_patch_already (by rw [hcr]; exact startswith_append _ _)

/-- Claim C2. Apply postcondition: if the existing file's content does not
start with the trimmed patch body, apply_patch rewrites the file to exactly
the trimmed body, a blank line, then the original content, and returns
success; in particular the `int main` / `#include <foo.h>` scenario of the
spec holds. -/
theorem apply_patch_overwrite (orig patch : List Char)
    (h : startswith orig (pyStrip patch) = false) :
    apply_patch (some orig) patch
      = (true, some (pyStrip patch ++ '\n' :: '\n' :: orig)) ∧
    apply_patch (some ("int main()\x7b\x7d\n".data)) ("#include <foo.h>".data)
      = (true, some ("#include <foo.h>\n\nint main()\x7b\x7d\n".data)) :=
  ⟨apply_patch_write h, by decide⟩

theorem apply_patch_overwrite_witness :
    startswith ("int main()\x7b\x7d\n".data) (pyStrip ("#include <foo.h>".data))
        = false ∧
    apply_patch (some ("int main()\x7b\x7d\n".data)) ("#include <foo.h>".data)
      = (true, some ("#include <foo.h>\n\nint main()\x7b\x7d\n".data)) :=
  ⟨by decide,
    (apply_patch_overwrite ("int main()\x7b\x7d\n".data) ("#include <foo.h>".data)
      (by decide)).2⟩

/-- Claim C4. Missing-file handling: on a nonexistent path apply_patch
returns False and creates no file, and the run continues with the remaining
entries: the results of a run containing such an entry are the results of
the other entries unchanged, with `(false, none)` in that entry's slot. -/
theorem apply_patch_missing_file (patch : List Char)
    (l₁ l₂ : List (Option (List Char) × List Char)) :
    apply_patch none patch = (false, none) ∧
    (mainRun (l₁ ++ (none, patch) :: l₂)).results
      = (mainRun l₁).results ++ (false, none) :: (mainRun l₂).results := by
  refine ⟨rfl, ?_⟩
  rw [mainRun_results, mainRun_results, mainRun_results, List.map_append, List.map_cons]
  rfl

/-- Claim C5. Content preservation: on an existing file every apply_patch
call succeeds and the original content is a suffix of the resulting
content; the result is either the unchanged original or exactly the trimmed
patch body, a blank line, then the original (nothing deleted or
reordered). -/
theorem apply_patch_preserves_content (orig patch : List Char) :
    (apply_patch (some orig) patch).1 = true ∧
    ∃ c, (apply_patch (some orig) patch).2 = some c ∧
      (∃ ins, c = ins ++ orig) ∧
      (c = orig ∨ c = pyStrip patch ++ '\n' :: '\n' :: orig) := by
  cases h : startswith orig (pyStrip patch) with
  | true =>
    rw [apply_patch_already h]
    exact ⟨rfl, orig, rfl, ⟨[], rfl⟩, Or.inl rfl⟩
  | false =>
    rw [apply_patch_write h]
    exact ⟨rfl, _, rfl, ⟨pyStrip patch ++ ['\n', '\n'], by simp⟩, Or.inr rfl⟩

/-- Claim C6. After every successful apply_patch call (newly written or
already applied), the target file exists and its content starts with the
trimmed patch body. -/
theorem apply_patch_success_starts (file : Option (List Char)) (patch : List Char)
    (h : (apply_patch file patch).1 = true) :
    ∃ c rest, (apply_patch file patch).2 = some c ∧ c = pyStrip patch ++ rest := by
  cases file with
  | none => simp [apply_patch] at h
  | some orig => exact apply_patch_result_starts orig patch

theorem apply_patch_success_starts_witness :
    (apply_patch (some ['x']) ['p']).1 = true ∧
    ∃ c rest, (apply_patch (some ['x']) ['p']).2 = some c ∧
      c = pyStrip ['p'] ++ rest :=
  ⟨by decide, apply_patch_success_starts (some ['x']) ['p'] (by decide)⟩

/-- Claim C7. Normalization: apply_patch strips leading and trailing
whitespace from the patch body before the comparison and the write, so
pre-stripping the patch body does not change its behaviour; and the spec's
example body strips to `#include <bar.h>`. -/
theorem apply_patch_normalizes (orig patch : List Char) :
    apply_patch (some orig) (pyStrip patch) = apply_patch (some orig) patch ∧
    pyStrip ("\n  #include <bar.h>  \n".data) = "#include <bar.h>".data := by
  constructor
  · simp only [apply_patch, pyStrip_idem]
  · decide

/-- Claim C10. Empty or whitespace-only patch body: if the patch body
strips to the empty string, apply_patch on an existing file returns success
and leaves the file unchanged, since every string starts with the empty
prefix. -/
theorem apply_patch_empty_patch (orig patch : List Char)
    (h : pyStrip patch = []) :
    apply_patch (some orig) patch = (true, some orig) := by
  refine apply_patch_already ?_
  rw [h]
  exact (startswith_iff orig []).mpr ⟨orig, rfl⟩

theorem apply_patch_empty_patch_witness :
    pyStrip (" \n\t ".data) = [] ∧
    apply_patch (some ['x']) (" \n\t ".data) = (true, some ['x']) :=
  ⟨by decide, apply_patch_empty_patch ['x'] (" \n\t ".data) (by decide)⟩

/-- Claim C3. Aggregate exit behaviour: in every run, the total is the
number of patch-table entries, the success tally counts the entries whose
apply returned True, the summary line contains
"K/N files checked/patched successfully.", and the exit code is 0 if the
tally equals the total and 1 otherwise. -/
theorem mainRun_exit_and_summary (entries : List (Option (List Char) × List Char)) :
    (mainRun entries).totalCount = entries.length ∧
    (mainRun entries).successCount
      = (entries.map (fun e => apply_patch e.1 e.2)).countP (fun r => r.1) ∧
    (mainRun entries).exitCode
      = (if (mainRun entries).successCount = (mainRun entries).totalCount
          then 0 else 1) ∧
    ∃ s₁ s₂ : String,
      (mainRun entries).summary
        = s₁ ++ (Nat.repr (mainRun entries).successCount ++ "/" ++
            Nat.repr (mainRun entries).totalCount ++
            " files checked/patched successfully.") ++ s₂ := by
  refine ⟨rfl, mainRun_successCount entries, ?_, "Patching process complete. ", "", ?_⟩
  · show (if (mainRun entries).successCount ≠ (mainRun entries).totalCount
        then 1 else 0) = _
    by_cases h : (mainRun entries).successCount = (mainRun entries).totalCount <;>
      simp [h]
  · show "Patching process complete. " ++ Nat.repr (mainRun entries).successCount ++
      "/" ++ Nat.repr (mainRun entries).totalCount ++
      " files checked/patched successfully." = _
    simp [String.append_empty, String.append_assoc]

/-- Claim C8. Error containment: an I/O failure injected into the read, or
into the write the entry needed, is caught inside apply_patch, which
returns False with the file unchanged; and under any fault assignment main
still processes every entry and decides the exit code solely from the
success tally. -/
theorem apply_patch_catches_faults :
    (∀ (orig patch : List Char) (rf wf : Bool),
      (rf = true ∨ (wf = true ∧ startswith orig (pyStrip patch) = false)) →
      apply_patchFaulty (some orig) patch rf wf = (false, some orig)) ∧
    (∀ entries : List FaultEntry,
      (mainRunFaulty entries).results.length = entries.length ∧
      (mainRunFaulty entries).exitCode
        = (if (mainRunFaulty entries).successCount = (mainRunFaulty entries).totalCount
            then 0 else 1)) := by
  constructor
  · rintro orig patch rf wf (rfl | ⟨rfl, hs⟩)
    · rfl
    · cases rf with
      | true => rfl
      | false => simp [apply_patchFaulty, hs]
  · intro entries
    constructor
    · rw [mainRunFaulty_results, List.length_map]
    · show (if (mainRunFaulty entries).successCount ≠ (mainRunFaulty entries).totalCount
          then 1 else 0) = _
      by_cases h :
          (mainRunFaulty entries).successCount = (mainRunFaulty entries).totalCount <;>
        simp [h]

theorem apply_patch_catches_faults_witness :
    (true = true ∨ (false = true ∧ startswith ['a'] (pyStrip ['p']) = false)) ∧
    apply_patchFaulty (some ['a']) ['p'] true false = (false, some ['a']) :=
  ⟨Or.inl rfl, apply_patch_catches_faults.1 ['a'] ['p'] true false (Or.inl rfl)⟩

/-- Claim C9. Duplication on whitespace-prefixed content: the
already-applied check compares the raw (untrimmed) file content against the
trimmed patch body, so a file consisting of a nonempty whitespace run, the
trimmed patch body, and the rest is not treated as already applied: the
patch is prepended again and the trimmed body then occurs twice in the
file. -/
theorem apply_patch_reapplies_on_leading_space (ws rest patch : List Char)
    (hws : ws ≠ []) (hsp : ∀ c ∈ ws, isPySpace c = true)
    (hp : pyStrip patch ≠ []) :
    apply_patch (some (ws ++ pyStrip patch ++ rest)) patch
      = (true, some (pyStrip patch ++ '\n' :: '\n' :: (ws ++ pyStrip patch ++ rest))) ∧
    ∃ mid tail, (apply_patch (some (ws ++ pyStrip patch ++ rest)) patch).2
      = some (pyStrip patch ++ mid ++ (pyStrip patch ++ tail)) := by
  have hfalse : startswith (ws ++ pyStrip patch ++ rest) (pyStrip patch) = false := by
    cases hsw : startswith (ws ++ pyStrip patch ++ rest) (pyStrip patch) with
    | false => rfl
    | true =>
      exfalso
      obtain ⟨u, hu⟩ := (startswith_iff _ _).mp hsw
      cases hP : pyStrip patch with
      | nil => exact hp hP
      | cons c t =>
        cases ws with
        | nil => exact hws rfl
        | cons w ws2 =>
          rw [hP] at hu
          simp only [List.cons_append, List.append_assoc, List.cons.injEq] at hu
          have h1 : isPySpace w = true := hsp w (by simp)
          have h2 : isPySpace c = false := pyStrip_head hP
          rw [hu.1, h2] at h1
          exact Bool.false_ne_true h1
  refine ⟨apply_patch_write hfalse, '\n' :: '\n' :: ws, rest, ?_⟩
  rw [apply_patch_write hfalse]
  simp [List.append_assoc]

theorem apply_patch_reapplies_on_leading_space_witness :
    ([' '] : List Char) ≠ [] ∧ (∀ c ∈ ([' '] : List Char), isPySpace c = true) ∧
    pyStrip ['a'] ≠ [] ∧
    apply_patch (some ([' '] ++ pyStrip ['a'] ++ [])) ['a']
      = (true, some (pyStrip ['a'] ++ '\n' :: '\n' :: ([' '] ++ pyStrip ['a'] ++ []))) :=
  ⟨by decide, by decide, by decide,
    (apply_patch_reapplies_on_leading_space [' '] [] ['a'] (by decide) (by decide)
      (by decide)).1⟩

end ApplyPatch
